import Mathlib

/-!
Shallow embedding of the synchronization orchestrator in
`src/apps/server/src/trpc/trpc.service.ts` (class `TrpcService`), together
with theorems settling the frozen claims about it.

Modelling conventions:
* The Prisma storage layer is modelled as an in-memory record store (`DB`).
* `async`/`await` effects are modelled by explicit state passing; outcomes of
  upstream HTTP calls are passed in as `Except`/oracle parameters.
* The process-wide mutable singletons (`inProgressHistoryMp`,
  `isRefreshAllMpArticlesRunning`, `blockedAccountsMap`) are threaded as
  explicit state.
-/

namespace TrpcService

/-- `RefreshArticlesResult` from trpc.service.ts (lines 18–25).
`hasHistory?` is optional in TS, hence `Option Nat` here; the counts are
`Int` because the already-running sentinel uses `-1`. -/
structure RefreshArticlesResult where
  message : String
  successCount : Int
  errorCount : Int
  failedFeeds : List String
  hasHistory : Option Nat
  articlesCount : Nat
  deriving DecidableEq, Repr

/-- Return type of `refreshAllMpArticlesAndUpdateFeed`
(`Omit<RefreshArticlesResult, 'articlesCount'>`; `hasHistory?` is never set
there, so it is dropped as well). -/
structure RefreshAllResult where
  message : String
  successCount : Int
  errorCount : Int
  failedFeeds : List String
  deriving DecidableEq, Repr

/-- One element of the article list returned by the upstream
`/api/v2/platform/mps/:mpId/articles` call (lines 152–158). -/
structure FetchedArticle where
  id : String
  title : String
  picUrl : String
  publishTime : Nat
  deriving DecidableEq, Repr

/-- A stored `article` row (fields used by the service). -/
structure Article where
  id : String
  mpId : String
  picUrl : String
  publishTime : Nat
  title : String
  deriving DecidableEq, Repr

/-- A stored `feed` row (fields used by the service). -/
structure Feed where
  id : String
  syncTime : Nat
  hasHistory : Nat
  status : Nat
  deriving DecidableEq, Repr

/-- A stored `account` row (fields used by the service). -/
structure Account where
  id : String
  token : String
  status : Nat
  deriving DecidableEq, Repr

/-- The slice of the relational store the orchestrator touches. -/
structure DB where
  feeds : List Feed
  articles : List Article
  deriving DecidableEq, Repr

/-- Modelled from the spec: `statusMap.ENABLE` is imported from
`@server/constants`, which is not part of the given sources; the spec's data
model only needs enabled/invalid to be distinct markers. -/
def statusEnable : Nat := 1

/-- Modelled from the spec: `statusMap.INVALID` from `@server/constants`
(see `statusEnable`). -/
def statusInvalid : Nat := 0

/-- Which relational backend is configured (`database.type`); the service
branches on `type === 'sqlite'` (line 197). -/
inductive DbType
  | sqlite
  | other
  deriving DecidableEq, Repr

/-- One `prisma.article.upsert` (lines 199–208): update refreshes only
`publishTime` and `title`; create inserts the full row. -/
def upsertArticle (arts : List Article) (mpId : String) (a : FetchedArticle) :
    List Article :=
  if arts.any (fun x => x.id == a.id) then
    arts.map (fun x =>
      if x.id == a.id then { x with publishTime := a.publishTime, title := a.title }
      else x)
  else
    arts ++ [⟨a.id, mpId, a.picUrl, a.publishTime, a.title⟩]

/-- `prisma.article.createMany` with `skipDuplicates: true`
(lines 211–220). -/
def createManySkipDup (arts : List Article) (mpId : String)
    (fetched : List FetchedArticle) : List Article :=
  fetched.foldl
    (fun acc a =>
      if acc.any (fun x => x.id == a.id) then acc
      else acc ++ [⟨a.id, mpId, a.picUrl, a.publishTime, a.title⟩])
    arts

/-- `prisma.feed.update({ where: { id: mpId }, data: { syncTime, hasHistory } })`
(lines 233–239). Prisma's `update` throws when no row matches `where`,
modelled as `.error`. -/
def updateFeed (feeds : List Feed) (mpId : String) (syncTime hasHistory : Nat) :
    Except Unit (List Feed) :=
  if feeds.any (fun f => f.id == mpId) then
    .ok (feeds.map (fun f =>
      if f.id == mpId then { f with syncTime := syncTime, hasHistory := hasHistory }
      else f))
  else
    .error ()

/-- The failure-shaped result built in the `catch` branch (lines 251–258). -/
def refreshFailureResult (mpId : String) : RefreshArticlesResult :=
  { message := s!"更新订阅源 {mpId} 失败。"
    successCount := 0
    errorCount := 1
    failedFeeds := [mpId]
    hasHistory := some 1
    articlesCount := 0 }

/-- `refreshMpArticlesAndUpdateFeed` (lines 186–260). `fetchOutcome` is the
result of `getMpArticles(mpId, page)` after its internal retries: `.error`
when the fetch ultimately threw. Inside the `try`, a throwing
`feed.update` (missing feed row) also lands in the `catch`; by then the
article writes have already been committed, so they survive into the
returned `DB`. `defaultCount` is the page-size constant from
`@server/constants` (not in the given sources), threaded as a parameter.
`page` is only forwarded to the fetch, hence unused once the fetch outcome
is supplied. -/
def refreshMpArticlesAndUpdateFeed (db : DB) (dbType : DbType)
    (defaultCount : Nat) (mpId : String) (now : Nat)
    (fetchOutcome : Except Unit (List FetchedArticle)) :
    DB × RefreshArticlesResult :=
  match fetchOutcome with
  | .error _ => (db, refreshFailureResult mpId)
  | .ok articles =>
    let arts :=
      if articles.length > 0 then
        match dbType with
        | .sqlite => articles.foldl (fun acc a => upsertArticle acc mpId a) db.articles
        | .other => createManySkipDup db.articles mpId articles
      else db.articles
    let hasHistory := if articles.length < defaultCount then 0 else 1
    match updateFeed db.feeds mpId now hasHistory with
    | .error _ => ({ db with articles := arts }, refreshFailureResult mpId)
    | .ok feeds =>
      (⟨feeds, arts⟩,
        { message := s!"成功更新订阅源 {mpId}。"
          successCount := 1
          errorCount := 0
          failedFeeds := []
          hasHistory := some hasHistory
          articlesCount := articles.length })

/-- The process-wide shared crawl record `inProgressHistoryMp`
(lines 262–265): `{ id: '', page: 1 }` when idle. -/
structure HistoryMpState where
  id : String
  page : Nat
  deriving DecidableEq, Repr

/-- The synchronous prefix of `getHistoryMpArticles` (lines 267–280): the
check-and-claim that runs before the first `await`. Returns the new shared
record and `true` when the call returns early (idempotent start on the same
id, or empty id meaning stop), `false` when it continues toward the crawl
loop. -/
def historyCrawlStart (st : HistoryMpState) (mpId : String) :
    HistoryMpState × Bool :=
  if st.id == mpId then (st, true)
  else
    let claimed : HistoryMpState := ⟨mpId, 1⟩
    if mpId == "" then (claimed, true)
    else (claimed, false)

/-- `Math.ceil(total / defaultCount)` on naturals (line 300). -/
def ceilDiv (a b : Nat) : Nat := (a + b - 1) / b

/-- The `while (i-- > 0)` crawl loop of `getHistoryMpArticles`
(lines 303–328), threading the shared record. `results page` is the
`hasHistory` value (after the `= 1` default) that
`refreshMpArticlesAndUpdateFeed(mpId, page)` reports for that page;
the store evolution behind it is abstracted into this oracle. Returns the
pages actually requested from the refresher, in order, and the record at
loop exit (before the `finally`). The loop breaks at an iteration boundary
when the shared record's id no longer equals `mpId`, or after a refresh
whose `hasHistory < 1`. -/
def crawlLoopPages : Nat → HistoryMpState → String → (Nat → Nat) →
    List Nat × HistoryMpState
  | 0, st, _, _ => ([], st)
  | fuel + 1, st, mpId, results =>
    if st.id != mpId then ([], st)
    else
      let h := results st.page
      if h < 1 then ([st.page], st)
      else
        let next := crawlLoopPages fuel ⟨st.id, st.page + 1⟩ mpId results
        (st.page :: next.1, next.2)

/-- `getHistoryMpArticles` (lines 267–335) for an uninterfered run:
`feedHasHistory` is `none` when `feed.findFirstOrThrow` throws (no such
feed), otherwise the stored `hasHistory`; `total` is the stored article
count for `mpId`. Every exit from the `try` passes through the `finally`,
which resets the shared record to `{ id: '', page: 1 }`; the two early
returns before the `try` (lines 268–280) do not. Returns the pages
requested from the refresher and the final shared record. -/
def getHistoryMpArticles (st : HistoryMpState) (mpId : String)
    (feedHasHistory : Option Nat) (total defaultCount : Nat)
    (results : Nat → Nat) : List Nat × HistoryMpState :=
  let start := historyCrawlStart st mpId
  if start.2 then ([], start.1)
  else
    match feedHasHistory with
    | none => ([], ⟨"", 1⟩)
    | some h =>
      if h == 0 then ([], ⟨"", 1⟩)
      else
        let st2 : HistoryMpState := ⟨mpId, ceilDiv total defaultCount⟩
        ((crawlLoopPages 1000 st2 mpId results).1, ⟨"", 1⟩)

/-- `Map.get` on the day-keyed `blockedAccountsMap`, modelled as an
association list (keys unique, insertion order kept). -/
def mapGet : List (String × List String) → String → Option (List String)
  | [], _ => none
  | p :: rest, k => if p.1 == k then some p.2 else mapGet rest k

/-- `Map.set` on `blockedAccountsMap`: replace in place when the key
exists, append otherwise. -/
def mapSet : List (String × List String) → String → List String →
    List (String × List String)
  | [], k, v => [(k, v)]
  | p :: rest, k, v =>
    if p.1 == k then (k, v) :: rest else p :: mapSet rest k v

/-- The quarantine-ledger effect of the response interceptor's error
handler (lines 84–100): when `blockedAccountsMap` has an array for
`today`, push the failing account id (when truthy, i.e. nonempty) and
`set` it back; otherwise the ledger is untouched (the remaining branches
only log or sleep). -/
def interceptorLedgerUpdate (ledger : List (String × List String))
    (today id : String) : List (String × List String) :=
  match mapGet ledger today with
  | some blocked =>
    mapSet ledger today (blocked ++ if id != "" then [id] else [])
  | none => ledger

/-- `getBlockedAccountIds` (lines 121–126): today's list, defaulting to
`[]`, filtered of falsy (empty) entries. -/
def getBlockedAccountIds (ledger : List (String × List String))
    (today : String) : List String :=
  ((mapGet ledger today).getD []).filter (fun s => s != "")

/-- The `where` clause of the `account.findMany` call in
`getAvailableAccount` (lines 130–138): `status = ENABLE` and id not in
today's blocked list; `accounts` is the account table in query order. -/
def eligibleAccounts (accounts : List Account)
    (ledger : List (String × List String)) (today : String) : List Account :=
  accounts.filter
    (fun a => a.status == statusEnable
      && !((getBlockedAccountIds ledger today).contains a.id))

/-- `getAvailableAccount` (lines 128–145): query up to 10 (`take: 10`)
eligible accounts, throw `暂无可用账号!` when none, else pick index
`Math.floor(Math.random() * length)` — modelled as `r % length` for an
arbitrary draw `r`. -/
def getAvailableAccount (accounts : List Account)
    (ledger : List (String × List String)) (today : String) (r : Nat) :
    Except String Account :=
  if h : ((eligibleAccounts accounts ledger today).take 10).length = 0 then
    .error "暂无可用账号!"
  else
    .ok (((eligibleAccounts accounts ledger today).take 10).get
      ⟨r % ((eligibleAccounts accounts ledger today).take 10).length,
        Nat.mod_lt r (Nat.pos_of_ne_zero h)⟩)

/-- `currentRoundFailedFeeds.add id` (a JS `Set` keeps insertion order and
ignores re-adds), with `Array.from` read off as the underlying list. -/
def addToSet (s : List String) (id : String) : List String :=
  if s.contains id then s else s ++ [id]

/-- One round of `refreshAllMpArticlesAndUpdateFeed`'s inner `for` loop
(lines 373–390): refresh each feed in order and collect into the round's
failure set those whose result has `errorCount > 0 || articlesCount === 0`.
`res id` is the `(errorCount, articlesCount)` pair the refresher reports
for `id` in this round (the refresher itself never throws, so the `catch`
inside the loop is dead). -/
def runRound (res : String → Int × Nat) : List String → List String →
    List String
  | [], acc => acc
  | id :: rest, acc =>
    runRound res rest
      (if (res id).1 > 0 ∨ (res id).2 = 0 then addToSet acc id else acc)

/-- The round loop of `refreshAllMpArticlesAndUpdateFeed`
(lines 366–404): up to `fuel` rounds starting at number `round`;
`res round id` is the refresher outcome oracle. Returns
`finalFailedFeeds`, the number of rounds actually executed, and the log of
`(round, feedId)` refresher invocations. Stops early exactly when a
round's failure set is empty, otherwise the next round processes the
failure set. -/
def refreshAllRounds (res : Nat → String → Int × Nat) :
    Nat → Nat → List String → List String × Nat × List (Nat × String)
  | 0, _, _ => ([], 0, [])
  | fuel + 1, round, feeds =>
    let failed := runRound (res round) feeds []
    let calls := feeds.map (fun id => (round, id))
    if failed.isEmpty then ([], 1, calls)
    else if fuel == 0 then (failed, 1, calls)
    else
      let rest := refreshAllRounds res fuel (round + 1) failed
      (rest.1, rest.2.1 + 1, calls ++ rest.2.2)

/-- `refreshAllMpArticlesAndUpdateFeed` (lines 339–442). Input `running`
is `isRefreshAllMpArticlesRunning` at call time; `enabled` the ids of the
`status = ENABLE` feeds. Returns the flag after the call, the result, and
the log of refresher invocations. The already-running fast path returns
the `(-1, -1)` sentinel before touching the flag or calling the refresher;
all other paths clear the flag in the `finally`. -/
def refreshAllMpArticlesAndUpdateFeed (running : Bool)
    (enabled : List String) (res : Nat → String → Int × Nat) :
    Bool × RefreshAllResult × List (Nat × String) :=
  if running then
    (running, ⟨"任务已在运行中", -1, -1, []⟩, [])
  else if enabled.isEmpty then
    (false, ⟨"没有需要更新的启用状态的订阅源。", 0, 0, []⟩, [])
  else
    let rounds := refreshAllRounds res 8 1 enabled
    (false,
      ⟨"更新流程结束", (enabled.length : Int) - rounds.1.length,
        (rounds.1.length : Int), rounds.1⟩,
      rounds.2.2)

/-! ## Helper lemmas -/

theorem mapGet_mapSet_self (m : List (String × List String)) (k : String)
    (v : List String) : mapGet (mapSet m k v) k = some v := by
  induction m with
  | nil => simp [mapSet, mapGet]
  | cons p rest ih =>
    by_cases h : p.1 == k
    · simp [mapSet, h, mapGet]
    · simp [mapSet, h, mapGet, ih]

theorem mem_addToSet (s : List String) (id a : String) :
    a ∈ addToSet s id ↔ a ∈ s ∨ a = id := by
  unfold addToSet
  by_cases h : s.contains id
  · rw [if_pos h]
    have hid : id ∈ s := by simpa using h
    constructor
    · exact Or.inl
    · rintro (h1 | rfl)
      · exact h1
      · exact hid
  · rw [if_neg h]
    simp

theorem mem_runRound (res : String → Int × Nat) (feeds : List String)
    (acc : List String) (a : String) :
    a ∈ runRound res feeds acc ↔
      a ∈ acc ∨ (a ∈ feeds ∧ ((res a).1 > 0 ∨ (res a).2 = 0)) := by
  induction feeds generalizing acc with
  | nil => simp [runRound]
  | cons id rest ih =>
    unfold runRound
    by_cases hp : (res id).1 > 0 ∨ (res id).2 = 0
    · rw [if_pos hp, ih, mem_addToSet]
      constructor
      · rintro ((h1 | rfl) | ⟨h1, h2⟩)
        · exact Or.inl h1
        · exact Or.inr ⟨List.mem_cons_self _ _, hp⟩
        · exact Or.inr ⟨List.mem_cons_of_mem _ h1, h2⟩
      · rintro (h1 | ⟨h1, h2⟩)
        · exact Or.inl (Or.inl h1)
        · rcases List.mem_cons.mp h1 with rfl | h1
          · exact Or.inl (Or.inr rfl)
          · exact Or.inr ⟨h1, h2⟩
    · rw [if_neg hp, ih]
      constructor
      · rintro (h1 | ⟨h1, h2⟩)
        · exact Or.inl h1
        · exact Or.inr ⟨List.mem_cons_of_mem _ h1, h2⟩
      · rintro (h1 | ⟨h1, h2⟩)
        · exact Or.inl h1
        · rcases List.mem_cons.mp h1 with rfl | h1
          · exact absurd h2 hp
          · exact Or.inr ⟨h1, h2⟩

theorem refreshAllRounds_early_stop_aux (res : Nat → String → Int × Nat)
    (fuel : Nat) : ∀ (round : Nat) (feeds : List String),
    (refreshAllRounds res fuel round feeds).2.1 < fuel →
      (refreshAllRounds res fuel round feeds).1 = [] := by
  induction fuel with
  | zero => intro round feeds h; simp [refreshAllRounds]
  | succ n ih =>
    intro round feeds h
    unfold refreshAllRounds at h ⊢
    by_cases he : (runRound (res round) feeds []).isEmpty
    · simp [he]
    · simp only [he, if_false, Bool.false_eq_true] at h ⊢
      by_cases hn : (n == 0)
      · simp only [hn, if_true] at h
        have : n = 0 := by simpa using hn
        omega
      · simp only [hn, if_false, Bool.false_eq_true] at h ⊢
        exact ih (round + 1) (runRound (res round) feeds []) (by omega)

theorem mem_updateFeedMap (feeds : List Feed) (mpId : String) (st hh : Nat)
    (f : Feed)
    (hf : f ∈ feeds.map (fun g =>
      if g.id == mpId then { g with syncTime := st, hasHistory := hh } else g))
    (hid : f.id = mpId) : f.syncTime = st ∧ f.hasHistory = hh := by
  obtain ⟨g, hg, rfl⟩ := List.mem_map.mp hf
  by_cases hcase : g.id == mpId
  · simp [hcase]
  · rw [if_neg (by simpa using hcase)] at hid ⊢
    exact absurd hid (by simpa using hcase)

theorem ceilDiv_zero_left (b : Nat) : ceilDiv 0 b = 0 := by
  unfold ceilDiv
  cases b with
  | zero => simp
  | succ k =>
    have : 0 + (k + 1) - 1 = k := by omega
    rw [this]
    exact Nat.div_eq_of_lt (Nat.lt_succ_self k)

/-! ## Claim theorems -/

/-- C1 (counterexample): with a history crawl active for source `A` (shared
record `{id: "A", page: 5}`), calling `getHistoryMpArticles` with the
different non-empty id `"B"` is NOT a no-op — the check-and-claim prefix
overwrites the shared crawl record, so the claim is false. -/
theorem historyCrawlStart_different_source_not_noop :
    (historyCrawlStart ⟨"A", 5⟩ "B").1 ≠ ⟨"A", 5⟩ := by decide

/-- C1 (amended): with a crawl active for non-empty `A`, calling
`getHistoryMpArticles` with a different non-empty id `B` overwrites the
shared crawl record to `{id: B, page: 1}` and proceeds toward `B`'s crawl
loop (no early return); `A`'s still-running loop then observes at its next
iteration-boundary check that the record's id differs from `A` and
terminates without further refresher calls. -/
theorem historyCrawlStart_different_source_overwrites (st : HistoryMpState)
    (A B : String) (hA : st.id = A) (hAB : A ≠ B) (hB : B ≠ "")
    (fuel p : Nat) (results : Nat → Nat) :
    historyCrawlStart st B = (⟨B, 1⟩, false)
    ∧ crawlLoopPages fuel ⟨B, p⟩ A results = ([], ⟨B, p⟩) := by
  subst hA
  have h1 : (st.id == B) = false := by simpa using hAB
  have h2 : (B == "") = false := by simpa using hB
  refine ⟨by simp [historyCrawlStart, h1, h2], ?_⟩
  have h3 : B ≠ st.id := Ne.symm hAB
  cases fuel with
  | zero => simp [crawlLoopPages]
  | succ n => simp [crawlLoopPages, h3]

/-- C1 (witness for the amended theorem). -/
theorem historyCrawlStart_different_source_overwrites_witness :
    historyCrawlStart ⟨"A", 5⟩ "B" = (⟨"B", 1⟩, false)
    ∧ crawlLoopPages 7 ⟨"B", 1⟩ "A" (fun _ => 1) = ([], ⟨"B", 1⟩) :=
  historyCrawlStart_different_source_overwrites ⟨"A", 5⟩ "A" "B" rfl
    (by decide) (by decide) 7 1 (fun _ => 1)

/-- C2 (counterexample): on a failed fetch, `refreshMpArticlesAndUpdateFeed`
returns from the `catch` without touching the store, so the feed's
`syncTime` stays `0` instead of being set to the current time `5` — the
claim that `syncTime` is set on every outcome is false. -/
theorem refreshMp_syncTime_unchanged_on_failure :
    (refreshMpArticlesAndUpdateFeed ⟨[⟨"A", 0, 1, 1⟩], []⟩ .sqlite 20 "A" 5
      (.error ())).1 = ⟨[⟨"A", 0, 1, 1⟩], []⟩
    ∧ (⟨"A", 0, 1, 1⟩ : Feed).syncTime ≠ 5 := by decide

/-- C2 (amended): `refreshMpArticlesAndUpdateFeed` sets the source's
`syncTime` to the current time only on the success path (fetch succeeded
and the feed row exists); when the fetch fails, the store — and hence the
source's `syncTime` — is left unchanged. -/
theorem refreshMp_syncTime_success_only (db : DB) (t : DbType) (dc : Nat)
    (mpId : String) (now : Nat) (arts : List FetchedArticle)
    (hfeed : db.feeds.any (fun f => f.id == mpId) = true) :
    (∀ f ∈ (refreshMpArticlesAndUpdateFeed db t dc mpId now (.ok arts)).1.feeds,
        f.id = mpId → f.syncTime = now)
    ∧ (refreshMpArticlesAndUpdateFeed db t dc mpId now (.error ())).1 = db := by
  refine ⟨?_, by simp [refreshMpArticlesAndUpdateFeed]⟩
  intro f hf hid
  simp only [refreshMpArticlesAndUpdateFeed, updateFeed, hfeed, if_true] at hf
  exact (mem_updateFeedMap db.feeds mpId now _ f hf hid).1

/-- C2 (witness for the amended theorem). -/
theorem refreshMp_syncTime_success_only_witness :
    (∀ f ∈ (refreshMpArticlesAndUpdateFeed ⟨[⟨"A", 0, 1, 1⟩], []⟩ .sqlite 20
        "A" 5 (.ok [])).1.feeds, f.id = "A" → f.syncTime = 5)
    ∧ (refreshMpArticlesAndUpdateFeed ⟨[⟨"A", 0, 1, 1⟩], []⟩ .sqlite 20 "A" 5
        (.error ())).1 = ⟨[⟨"A", 0, 1, 1⟩], []⟩ :=
  refreshMp_syncTime_success_only ⟨[⟨"A", 0, 1, 1⟩], []⟩ .sqlite 20 "A" 5 []
    (by decide)

/-- C3: `refreshMpArticlesAndUpdateFeed` never propagates an exception (it
is a total function into `DB × RefreshArticlesResult`); whenever the fetch
fails, or the storage update fails because the feed row is missing, it
returns exactly the failure-shaped result `successCount = 0`,
`errorCount = 1`, `failedFeeds = [mpId]`, `hasHistory = 1`,
`articlesCount = 0`. -/
theorem refreshMp_failure_shape (db : DB) (t : DbType) (dc : Nat)
    (mpId : String) (now : Nat) (outcome : Except Unit (List FetchedArticle))
    (h : outcome = .error () ∨ db.feeds.any (fun f => f.id == mpId) = false) :
    (refreshMpArticlesAndUpdateFeed db t dc mpId now outcome).2.successCount = 0
    ∧ (refreshMpArticlesAndUpdateFeed db t dc mpId now outcome).2.errorCount = 1
    ∧ (refreshMpArticlesAndUpdateFeed db t dc mpId now outcome).2.failedFeeds = [mpId]
    ∧ (refreshMpArticlesAndUpdateFeed db t dc mpId now outcome).2.hasHistory = some 1
    ∧ (refreshMpArticlesAndUpdateFeed db t dc mpId now outcome).2.articlesCount = 0 := by
  rcases h with rfl | hmiss
  · simp [refreshMpArticlesAndUpdateFeed, refreshFailureResult]
  · cases outcome with
    | error e =>
      simp [refreshMpArticlesAndUpdateFeed, refreshFailureResult]
    | ok arts =>
      simp [refreshMpArticlesAndUpdateFeed, updateFeed, hmiss,
        refreshFailureResult]

/-- C3 (witness). -/
theorem refreshMp_failure_shape_witness :
    (refreshMpArticlesAndUpdateFeed ⟨[], []⟩ .sqlite 20 "A" 5 (.ok [])).2.successCount = 0
    ∧ (refreshMpArticlesAndUpdateFeed ⟨[], []⟩ .sqlite 20 "A" 5 (.ok [])).2.errorCount = 1
    ∧ (refreshMpArticlesAndUpdateFeed ⟨[], []⟩ .sqlite 20 "A" 5 (.ok [])).2.failedFeeds = ["A"]
    ∧ (refreshMpArticlesAndUpdateFeed ⟨[], []⟩ .sqlite 20 "A" 5 (.ok [])).2.hasHistory = some 1
    ∧ (refreshMpArticlesAndUpdateFeed ⟨[], []⟩ .sqlite 20 "A" 5 (.ok [])).2.articlesCount = 0 :=
  refreshMp_failure_shape ⟨[], []⟩ .sqlite 20 "A" 5 (.ok []) (Or.inr (by decide))

/-- C4: on a successful page refresh (fetch succeeded, feed row present)
the source's stored `hasHistory` is recomputed as `0` iff the returned
page's article count is strictly below `defaultCount`, and as `1` otherwise;
the returned result carries the same value. -/
theorem refreshMp_hasHistory_recompute (db : DB) (t : DbType) (dc : Nat)
    (mpId : String) (now : Nat) (arts : List FetchedArticle)
    (hfeed : db.feeds.any (fun f => f.id == mpId) = true) :
    (∀ f ∈ (refreshMpArticlesAndUpdateFeed db t dc mpId now (.ok arts)).1.feeds,
        f.id = mpId →
          ((f.hasHistory = 0 ↔ arts.length < dc)
            ∧ (f.hasHistory = 1 ↔ ¬ arts.length < dc)))
    ∧ (refreshMpArticlesAndUpdateFeed db t dc mpId now (.ok arts)).2.hasHistory
        = some (if arts.length < dc then 0 else 1) := by
  constructor
  · intro f hf hid
    simp only [refreshMpArticlesAndUpdateFeed, updateFeed, hfeed, if_true] at hf
    have hh := (mem_updateFeedMap db.feeds mpId now _ f hf hid).2
    by_cases hlt : arts.length < dc
    · rw [if_pos hlt] at hh
      simp [hh, hlt]
    · rw [if_neg hlt] at hh
      simp [hh, hlt]
  · simp [refreshMpArticlesAndUpdateFeed, updateFeed, hfeed]

/-- C4 (witness). -/
theorem refreshMp_hasHistory_recompute_witness :
    (∀ f ∈ (refreshMpArticlesAndUpdateFeed ⟨[⟨"A", 0, 1, 1⟩], []⟩ .sqlite 20
        "A" 5 (.ok [])).1.feeds, f.id = "A" →
          ((f.hasHistory = 0 ↔ ([] : List FetchedArticle).length < 20)
            ∧ (f.hasHistory = 1 ↔ ¬ ([] : List FetchedArticle).length < 20)))
    ∧ (refreshMpArticlesAndUpdateFeed ⟨[⟨"A", 0, 1, 1⟩], []⟩ .sqlite 20 "A" 5
        (.ok [])).2.hasHistory
        = some (if ([] : List FetchedArticle).length < 20 then 0 else 1) :=
  refreshMp_hasHistory_recompute ⟨[⟨"A", 0, 1, 1⟩], []⟩ .sqlite 20 "A" 5 []
    (by decide)

/-- C5: if `isRefreshAllMpArticlesRunning` is already set,
`refreshAllMpArticlesAndUpdateFeed` immediately returns the sentinel
`successCount = -1, errorCount = -1, failedFeeds = []`, leaves the flag as
it was, and performs no refresher call (empty invocation log). -/
theorem refreshAll_already_running_sentinel (enabled : List String)
    (res : Nat → String → Int × Nat) :
    refreshAllMpArticlesAndUpdateFeed true enabled res
      = (true, ⟨"任务已在运行中", -1, -1, []⟩, []) := by
  simp [refreshAllMpArticlesAndUpdateFeed]

/-- C6: calling `getHistoryMpArticles` with the empty id while a crawl for
non-empty `A` is active overwrites the shared record to `{id: '', page: 1}`
and returns early (never reaching the crawl loop); `A`'s loop then observes
at its next iteration-boundary check that the record's id differs from `A`
and terminates with no further refresher call, leaving the record at
`{id: '', page: 1}` (which `A`'s `finally` re-writes unchanged). -/
theorem getHistoryMpArticles_stop_cancels (st : HistoryMpState) (A : String)
    (hA : st.id = A) (hne : A ≠ "") (fuel : Nat) (results : Nat → Nat)
    (feedHasHistory : Option Nat) (total dc : Nat) :
    historyCrawlStart st "" = (⟨"", 1⟩, true)
    ∧ getHistoryMpArticles st "" feedHasHistory total dc results
        = ([], ⟨"", 1⟩)
    ∧ crawlLoopPages fuel ⟨"", 1⟩ A results = ([], ⟨"", 1⟩) := by
  subst hA
  have h1 : (st.id == "") = false := by simpa using hne
  have hstart : historyCrawlStart st "" = (⟨"", 1⟩, true) := by
    simp [historyCrawlStart, h1]
  refine ⟨hstart, by simp [getHistoryMpArticles, hstart], ?_⟩
  have h3 : ("" : String) ≠ st.id := Ne.symm hne
  cases fuel with
  | zero => simp [crawlLoopPages]
  | succ n => simp [crawlLoopPages, h3]

/-- C6 (witness). -/
theorem getHistoryMpArticles_stop_cancels_witness :
    historyCrawlStart ⟨"A", 3⟩ "" = (⟨"", 1⟩, true)
    ∧ getHistoryMpArticles ⟨"A", 3⟩ "" (some 1) 0 20 (fun _ => 1)
        = ([], ⟨"", 1⟩)
    ∧ crawlLoopPages 5 ⟨"", 1⟩ "A" (fun _ => 1) = ([], ⟨"", 1⟩) :=
  getHistoryMpArticles_stop_cancels ⟨"A", 3⟩ "A" rfl (by decide) 5
    (fun _ => 1) (some 1) 0 20

/-- C7: in every bulk-refresh round, a source lands in that round's failure
set iff it was processed in the round and its refresh result has
`errorCount > 0` or `articlesCount = 0` (so a zero-article success is
retried like a failure); and the round loop stops before exhausting the
8-round budget only with an empty final failure set. -/
theorem refreshAll_failure_set_iff_and_early_stop
    (res : Nat → String → Int × Nat) (feeds : List String) (round : Nat)
    (id : String) :
    (id ∈ runRound (res round) feeds [] ↔
      id ∈ feeds ∧ ((res round id).1 > 0 ∨ (res round id).2 = 0))
    ∧ ((refreshAllRounds res 8 1 feeds).2.1 < 8 →
        (refreshAllRounds res 8 1 feeds).1 = []) := by
  refine ⟨?_, refreshAllRounds_early_stop_aux res 8 1 feeds⟩
  simpa using mem_runRound (res round) feeds [] id

/-- C7 (witness). -/
theorem refreshAll_failure_set_iff_and_early_stop_witness :
    ("A" ∈ runRound ((fun (_ : Nat) (_ : String) => ((0 : Int), 5)) 1)
        ["A"] [] ↔
      "A" ∈ ["A"]
        ∧ (((fun (_ : Nat) (_ : String) => ((0 : Int), 5)) 1 "A").1 > 0
          ∨ ((fun (_ : Nat) (_ : String) => ((0 : Int), 5)) 1 "A").2 = 0))
    ∧ ((refreshAllRounds (fun _ _ => ((0 : Int), 5)) 8 1 ["A"]).2.1 < 8 →
        (refreshAllRounds (fun _ _ => ((0 : Int), 5)) 8 1 ["A"]).1 = []) :=
  refreshAll_failure_set_iff_and_early_stop (fun _ _ => ((0 : Int), 5))
    ["A"] 1 "A"

/-- C8: whenever at least one enabled, unquarantined account exists,
`getAvailableAccount` returns an account drawn from the (up to 10 queried)
eligible ones; with no eligible account it fails with the
no-available-credential error. -/
theorem getAvailableAccount_spec (accounts : List Account)
    (ledger : List (String × List String)) (today : String) (r : Nat) :
    (eligibleAccounts accounts ledger today ≠ [] →
      ∃ a, getAvailableAccount accounts ledger today r = .ok a
        ∧ a ∈ (eligibleAccounts accounts ledger today).take 10)
    ∧ (eligibleAccounts accounts ledger today = [] →
      getAvailableAccount accounts ledger today r = .error "暂无可用账号!") := by
  constructor
  · intro hne
    have hpos : 0 < ((eligibleAccounts accounts ledger today).take 10).length := by
      rw [List.length_take]
      exact lt_min_iff.mpr ⟨by norm_num, List.length_pos.mpr hne⟩
    unfold getAvailableAccount
    rw [dif_neg (Nat.pos_iff_ne_zero.mp hpos)]
    exact ⟨_, rfl, List.get_mem _ _ _⟩
  · intro he
    unfold getAvailableAccount
    rw [dif_pos (by simp [he])]

/-- C8 (witness). -/
theorem getAvailableAccount_spec_witness :
    (eligibleAccounts [⟨"a1", "t", 1⟩] [] "d" ≠ [] →
      ∃ a, getAvailableAccount [⟨"a1", "t", 1⟩] [] "d" 0 = .ok a
        ∧ a ∈ (eligibleAccounts [⟨"a1", "t", 1⟩] [] "d").take 10)
    ∧ (eligibleAccounts [⟨"a1", "t", 1⟩] [] "d" = [] →
      getAvailableAccount [⟨"a1", "t", 1⟩] [] "d" 0 = .error "暂无可用账号!") :=
  getAvailableAccount_spec [⟨"a1", "t", 1⟩] [] "d" 0

/-- C9: the interceptor's automated quarantine appends the failing
account's (nonempty) id to today's ledger list exactly when a list for
today already exists; when no entry for today exists the whole ledger is
left unchanged — no list is created. -/
theorem interceptor_quarantine_requires_existing_entry
    (ledger : List (String × List String)) (today id : String)
    (blocked : List String) (hid : id ≠ "") :
    (mapGet ledger today = some blocked →
      mapGet (interceptorLedgerUpdate ledger today id) today
        = some (blocked ++ [id]))
    ∧ (mapGet ledger today = none →
      interceptorLedgerUpdate ledger today id = ledger) := by
  constructor
  · intro h
    unfold interceptorLedgerUpdate
    rw [h]
    simp only [bne_iff_ne, ne_eq, hid, not_false_eq_true, if_true]
    exact mapGet_mapSet_self ledger today (blocked ++ [id])
  · intro h
    unfold interceptorLedgerUpdate
    rw [h]

/-- C9 (witness). -/
theorem interceptor_quarantine_requires_existing_entry_witness :
    (mapGet [("d", ["x"])] "d" = some ["x"] →
      mapGet (interceptorLedgerUpdate [("d", ["x"])] "d" "y") "d"
        = some (["x"] ++ ["y"]))
    ∧ (mapGet [("d", ["x"])] "d" = none →
      interceptorLedgerUpdate [("d", ["x"])] "d" "y" = [("d", ["x"])]) :=
  interceptor_quarantine_requires_existing_entry [("d", ["x"])] "d" "y" ["x"]
    (by decide)

/-- C10: starting a history crawl for a source with zero stored articles
(and `hasHistory ≠ 0`) computes the starting page as
`Math.ceil(0 / defaultCount) = 0`, so the crawl's first call to the
refresher requests page `0`, not page `1`. -/
theorem getHistoryMpArticles_zero_count_requests_page_zero (mpId : String)
    (hmp : mpId ≠ "") (hh : Nat) (hnz : hh ≠ 0) (dc : Nat)
    (results : Nat → Nat) :
    ((getHistoryMpArticles ⟨"", 1⟩ mpId (some hh) 0 dc results).1).head?
      = some 0 := by
  have h1 : (("" : String) == mpId) = false := by simpa using (Ne.symm hmp)
  have h2 : (mpId == "") = false := by simpa using hmp
  have h3 : ¬ (hh = 0) := hnz
  unfold getHistoryMpArticles historyCrawlStart
  simp only [h1, h2, h3, Bool.false_eq_true, if_false, beq_iff_eq,
    ceilDiv_zero_left]
  rw [show (1000 : Nat) = 999 + 1 from rfl]
  unfold crawlLoopPages
  simp only [bne_self_eq_false, Bool.false_eq_true, if_false]
  by_cases hres : results 0 < 1
  · simp [hres]
  · simp [hres]

/-- C10 (witness). -/
theorem getHistoryMpArticles_zero_count_requests_page_zero_witness :
    ((getHistoryMpArticles ⟨"", 1⟩ "A" (some 1) 0 20 (fun _ => 0)).1).head?
      = some 0 :=
  getHistoryMpArticles_zero_count_requests_page_zero "A" (by decide) 1
    (by decide) 20 (fun _ => 0)

end TrpcService
